import Mathlib

/-!
Verification of the rw_lease reader/writer lease primitive (src/src/lib.rs).

The lock state is a single W-bit unsigned word: bit W-1 (the sign bit of the
signed counterpart, `MIN.drop_sign()` in the source) is the writer-intent
flag, bits 0..W-2 are the reader count.  We embed the word as a `Nat` with
explicit `% 2 ^ W` wrapping where the source's fixed-width arithmetic wraps,
and each atomic operation as a pure function from the loaded word to the
result and the new word.  The `compare_exchange_weak` in `poll_read` is
modelled by a boolean `casWins` input: `true` is the case where no concurrent
mutation (nor spurious failure) beat the CAS, `false` the case where one did.
-/

namespace RWLease

/-- The `Blocked` enum of lib.rs: why a lease attempt could not proceed. -/
inductive Blocked where
  | Readers : Blocked
  | Writer : Blocked
  | LostRace : Blocked
deriving DecidableEq, Repr

/-- The writer-intent bit, `<<A::Prim as AddSign>::Signed as Integer>::MIN.drop_sign()`
in the source: the top bit `2 ^ (W - 1)` of a W-bit word. -/
def mask (W : Nat) : Nat := 2 ^ (W - 1)

/-- `<A::Prim as Integer>::MAX`: the all-ones W-bit word. -/
def maxWord (W : Nat) : Nat := 2 ^ W - 1

/-- W-bit bitwise complement, as `!x` computes on a W-bit unsigned integer
(for `x ≤ maxWord W` this agrees with flipping every one of the W bits). -/
def notW (W x : Nat) : Nat := maxWord W - x

/-- `RWLease::poll_read` (lib.rs lines 77-100), as a function of the loaded
word `current` and of whether the weak CAS succeeds.  Returns the `Result`
together with the word left in the atomic. -/
def pollRead (W current : Nat) (casWins : Bool) : Except Blocked Unit × Nat :=
  if current < maxWord W then
    let new := current + 1
    if new < mask W then
      if casWins then (Except.ok (), new)
      else (Except.error Blocked.LostRace, current)
    else if current &&& mask W ≠ mask W then
      (Except.error Blocked.Readers, current)
    else
      (Except.error Blocked.Writer, current)
  else
    (Except.error Blocked.Writer, current)

/-- `RWLease::poll_write_mark` (lib.rs lines 102-115): a fetch-or of the
writer bit, classifying the previous value.  Returns the `Result<bool, Blocked>`
(the bool is the DrainGuard's `ready` flag) together with the word left in
the atomic, which the fetch-or has set to `current ||| mask W`. -/
def pollWriteMark (W current : Nat) : Except Blocked Bool × Nat :=
  let ret := current
  let word := current ||| mask W
  if ret = 0 then (Except.ok true, word)
  else if ret &&& mask W ≠ mask W then (Except.ok false, word)
  else (Except.error Blocked.Writer, word)

/-- `RWLease::poll_write_upgrade` (lib.rs lines 117-120): the re-loaded word
equals exactly the writer bit with zero count. -/
def pollWriteUpgrade (W current : Nat) : Bool := mask W == current

/-- `RWLease::done_reading` (lib.rs lines 122-125): an unconditional wrapping
`fetch_sub(1)`.  Returns the previous word and the new word. -/
def doneReading (W current : Nat) : Nat × Nat :=
  (current, (current + (2 ^ W - 1)) % 2 ^ W)

/-- `RWLease::done_writing` (lib.rs lines 127-130): `fetch_and(!mask)`,
clearing the writer bit. -/
def doneWriting (W current : Nat) : Nat := current &&& notW W (mask W)

/-- `DrainGuard::drop` (lib.rs lines 179-182): the same `fetch_and(!mask)`. -/
def drainGuardDrop (W current : Nat) : Nat := current &&& notW W (mask W)

/-- `DrainGuard::upgrade` (lib.rs lines 161-170) as a function of the guard's
`ready` flag and the current word: succeeds if `ready` or if the re-loaded
word is exactly the writer bit; the word is never modified. -/
def upgrade (W : Nat) (ready : Bool) (current : Nat) : Bool × Nat :=
  if ready || pollWriteUpgrade W current then (true, current) else (false, current)

/-- The `RWLease` struct: the atomic word plus the protected value. -/
structure Lease (α : Type) where
  atomic : Nat
  value : α

variable {α : Type}

/-- `RWLease::new`: word 0, stores the value. -/
def Lease.new (v : α) : Lease α := Lease.mk 0 v

/-- `RWLease::into_inner`: returns the protected value. -/
def Lease.intoInner (l : Lease α) : α := l.value

/-- `RWLease::read`: runs `poll_read` against the atomic word only. -/
def Lease.read (W : Nat) (l : Lease α) (casWins : Bool) : Except Blocked Unit × Lease α :=
  ((pollRead W l.atomic casWins).1, Lease.mk (pollRead W l.atomic casWins).2 l.value)

/-- `RWLease::write`: runs `poll_write_mark` against the atomic word only. -/
def Lease.write (W : Nat) (l : Lease α) : Except Blocked Bool × Lease α :=
  ((pollWriteMark W l.atomic).1, Lease.mk (pollWriteMark W l.atomic).2 l.value)

/-- `ReadGuard::drop`: calls `done_reading` on the atomic word only. -/
def Lease.readGuardDrop (W : Nat) (l : Lease α) : Lease α :=
  Lease.mk (doneReading W l.atomic).2 l.value

/-- `DrainGuard::drop` at the Lease level: `fetch_and(!mask)` on the word only. -/
def Lease.drainGuardDrop (W : Nat) (l : Lease α) : Lease α :=
  Lease.mk (RWLease.drainGuardDrop W l.atomic) l.value

/-- `WriteGuard::drop`: calls `done_writing` on the atomic word only. -/
def Lease.writeGuardDrop (W : Nat) (l : Lease α) : Lease α :=
  Lease.mk (doneWriting W l.atomic) l.value

/-- `DrainGuard::upgrade` at the Lease level: touches the word only (and in
fact leaves it unchanged). -/
def Lease.upgrade (W : Nat) (ready : Bool) (l : Lease α) : Bool × Lease α :=
  ((RWLease.upgrade W ready l.atomic).1,
   Lease.mk (RWLease.upgrade W ready l.atomic).2 l.value)

/-- `WriteGuard::deref_mut`: the one operation that can replace the protected
value. -/
def Lease.writeDerefMut (l : Lease α) (v : α) : Lease α := Lease.mk l.atomic v

/-- Iterated successful read acquisitions: `n` consecutive `poll_read` calls,
each required to return `Ok` (CAS winning each time); `none` if any fails. -/
def acquireN (W : Nat) : Nat → Nat → Option Nat
  | 0, c => some c
  | n + 1, c =>
    match pollRead W c true with
    | (Except.ok _, c2) => acquireN W n c2
    | (Except.error _, _) => none

/-- Iterated ReadGuard drops: `n` consecutive `done_reading` calls. -/
def dropsN (W : Nat) : Nat → Nat → Nat
  | 0, c => c
  | n + 1, c => dropsN W n (doneReading W c).2

/-! Helper lemmas shared by the claim theorems. -/

theorem mask_pos (W : Nat) : 0 < mask W := Nat.two_pow_pos _

theorem two_pow_split (W : Nat) (hW : 0 < W) : 2 ^ W = 2 ^ (W - 1) * 2 := by
  rw [← Nat.pow_succ]
  congr 1
  omega

theorem mask_le_maxWord (W : Nat) (hW : 0 < W) : mask W ≤ maxWord W := by
  unfold mask maxWord
  have h1 : 0 < 2 ^ (W - 1) := Nat.two_pow_pos _
  have h2 := two_pow_split W hW
  omega

theorem notW_mask (W : Nat) (hW : 0 < W) : notW W (mask W) = mask W - 1 := by
  unfold notW mask maxWord
  have h1 : 0 < 2 ^ (W - 1) := Nat.two_pow_pos _
  have h2 := two_pow_split W hW
  omega

theorem mask_le_of_flag (W c : Nat) (h : c &&& mask W = mask W) : mask W ≤ c := by
  calc mask W = c &&& mask W := h.symm
    _ ≤ c := Nat.and_le_left

theorem and_mask_sub_one (W x : Nat) : x &&& (mask W - 1) = x % mask W := by
  unfold mask
  exact Nat.and_pow_two_sub_one_eq_mod x (W - 1)

theorem and_mask_of_lt (W x : Nat) (h : x < mask W) : x &&& mask W = 0 := by
  unfold mask at *
  rw [Nat.and_two_pow, Nat.testBit_eq_false_of_lt h]
  simp

theorem pollRead_cas (W c : Nat) (hW : 0 < W) (h : c + 1 < mask W) :
    pollRead W c true = (Except.ok (), c + 1) ∧
    pollRead W c false = (Except.error Blocked.LostRace, c) := by
  have hm := mask_le_maxWord W hW
  have hc : c < maxWord W := by omega
  unfold pollRead
  simp [hc, h]

/-- C3: for every word in which the writer-intent flag (the top bit) is set,
`poll_read` returns `Err(Blocked::Writer)` regardless of the reader count,
including a count of max-minus-one and the all-ones word: the writer flag
takes precedence over the reader-count saturation check. -/
theorem read_blocked_by_writer (W c : Nat) (b : Bool)
    (hflag : c &&& mask W = mask W) :
    (pollRead W c b).1 = Except.error Blocked.Writer := by
  have hle := mask_le_of_flag W c hflag
  unfold pollRead
  by_cases hmax : c < maxWord W
  · have hnew : ¬ (c + 1 < mask W) := by omega
    simp [hmax, hnew, hflag]
  · simp [hmax]

/-- Witness for C3 at the two seeded words of the spec's Scenario B: the
flag-plus-max-minus-one-readers word 254 and the all-ones word 255, at W = 8. -/
theorem read_blocked_by_writer_witness :
    (pollRead 8 254 true).1 = Except.error Blocked.Writer ∧
    (pollRead 8 255 true).1 = Except.error Blocked.Writer :=
  ⟨read_blocked_by_writer 8 254 true (by decide),
   read_blocked_by_writer 8 255 true (by decide)⟩

/-- C4: when the writer-intent flag is clear and the reader count is at its
maximum representable value 2 ^ (W - 1) - 1, `poll_read` returns
`Err(Blocked::Readers)`. -/
theorem read_blocked_by_readers (W : Nat) (b : Bool) (hW : 0 < W) :
    (pollRead W (mask W - 1) b).1 = Except.error Blocked.Readers := by
  have hm := mask_le_maxWord W hW
  have hpos := mask_pos W
  have hmax : mask W - 1 < maxWord W := by omega
  have hnew : ¬ (mask W - 1 + 1 < mask W) := by omega
  have hand : (mask W - 1) &&& mask W = 0 := and_mask_of_lt W _ (by omega)
  have hneq : (mask W - 1) &&& mask W ≠ mask W := by
    rw [hand]
    omega
  unfold pollRead
  simp [hmax, hnew, hneq]

/-- Witness for C4 at W = 8: the word 127 (flag clear, count maximal). -/
theorem read_blocked_by_readers_witness :
    (pollRead 8 (mask 8 - 1) true).1 = Except.error Blocked.Readers :=
  read_blocked_by_readers 8 true (by decide)

/-- C5: when the loaded word has the flag clear and the count below maximum,
`poll_read` makes exactly one CAS attempt of current to current + 1: when the
CAS succeeds it returns `Ok` with the word incremented by one, and when the
CAS fails it returns `Err(Blocked::LostRace)` with the word unchanged. -/
theorem read_single_cas (W c : Nat) (hW : 0 < W)
    (hflag : c &&& mask W = 0) (hroom : c + 1 < mask W) :
    pollRead W c true = (Except.ok (), c + 1) ∧
    pollRead W c false = (Except.error Blocked.LostRace, c) :=
  pollRead_cas W c hW hroom

/-- Witness for C5 at W = 8, word 5. -/
theorem read_single_cas_witness :
    pollRead 8 5 true = (Except.ok (), 6) ∧
    pollRead 8 5 false = (Except.error Blocked.LostRace, 5) :=
  read_single_cas 8 5 (by decide) (by decide) (by decide)

/-- Counterexample to C1: with the writer-intent flag already set (word 128 at
W = 8), `poll_write_mark` — and hence `write()` — returns
`Err(Blocked::Writer)`, so `write()` can fail at runtime, contrary to the
claim that it always yields a DrainGuard. -/
theorem write_when_flag_set_cex :
    pollWriteMark 8 128 = (Except.error Blocked.Writer, 128) := rfl

/-- C1 amended: `write()` yields a DrainGuard exactly when the previous word
had the writer-intent flag clear; when the flag is already set by a prior
writer it returns `Err(Blocked::Writer)` — the at-most-one-outstanding-write
constraint is detected at runtime from the fetch-or's previous value. -/
theorem write_flag_runtime_checked (W c : Nat) (hW : 0 < W) :
    (c &&& mask W = mask W → (pollWriteMark W c).1 = Except.error Blocked.Writer) ∧
    (c &&& mask W ≠ mask W → ∃ b, (pollWriteMark W c).1 = Except.ok b) := by
  have hpos := mask_pos W
  constructor
  · intro hflag
    have hne : c ≠ 0 := by
      intro h0
      subst h0
      rw [Nat.zero_and] at hflag
      omega
    unfold pollWriteMark
    simp [hne, hflag]
  · intro hflag
    by_cases h0 : c = 0
    · subst h0
      exact ⟨true, by simp [pollWriteMark]⟩
    · exact ⟨false, by unfold pollWriteMark; simp [h0, hflag]⟩

/-- Witness for the amended C1 at W = 8: word 128 (flag set) is rejected,
word 3 (flag clear) yields a guard. -/
theorem write_flag_runtime_checked_witness :
    (pollWriteMark 8 128).1 = Except.error Blocked.Writer ∧
    (∃ b, (pollWriteMark 8 3).1 = Except.ok b) :=
  ⟨(write_flag_runtime_checked 8 128 (by decide)).1 (by decide),
   (write_flag_runtime_checked 8 3 (by decide)).2 (by decide)⟩

/-- Counterexample to C2: dropping a ReadGuard when the word is 0 (count
already zero, at W = 8) performs the unconditional `fetch_sub` and silently
wraps the word to the all-ones value 255 — no assertion failure occurs,
contrary to the claim. -/
theorem readguard_drop_zero_cex : doneReading 8 0 = (0, 255) := rfl

/-- C2 amended: releasing a ReadGuard when the count is already zero performs
an unchecked wrapping decrement: the word becomes the all-ones value
2 ^ W - 1, whose writer-intent flag is set — there is no assertion or abort in
`done_reading` or `ReadGuard::drop`. -/
theorem readguard_drop_wraps_at_zero (W : Nat) (hW : 0 < W) :
    (doneReading W 0).2 = 2 ^ W - 1 ∧ (doneReading W 0).2 &&& mask W = mask W := by
  have hp : 0 < 2 ^ W := Nat.two_pow_pos W
  have h1 : (doneReading W 0).2 = 2 ^ W - 1 := by
    have h2 : (doneReading W 0).2 = (0 + (2 ^ W - 1)) % 2 ^ W := rfl
    rw [h2, Nat.zero_add]
    exact Nat.mod_eq_of_lt (by omega)
  refine ⟨h1, ?_⟩
  rw [h1]
  unfold mask
  rw [Nat.and_two_pow]
  have hbit : (2 ^ W - 1).testBit (W - 1) = true := by
    rw [Nat.testBit_two_pow_sub_one]
    exact decide_eq_true (by omega)
  rw [hbit]
  simp

/-- Witness for the amended C2 at W = 8. -/
theorem readguard_drop_wraps_at_zero_witness :
    (doneReading 8 0).2 = 2 ^ 8 - 1 ∧ (doneReading 8 0).2 &&& mask 8 = mask 8 :=
  readguard_drop_wraps_at_zero 8 (by decide)

/-- C6: `write()` performs a fetch-or of the writer bit and classifies the
previous value: previous exactly zero yields `Ok(true)` (a DrainGuard flagged
ready), previous with flag clear but nonzero count yields `Ok(false)` (a
DrainGuard flagged not-ready); in both cases the word left behind is the
previous value with the flag bit or-ed in. -/
theorem write_fetch_or_classify (W : Nat) (hW : 0 < W) :
    pollWriteMark W 0 = (Except.ok true, mask W) ∧
    (∀ c, c &&& mask W = 0 → c ≠ 0 →
      pollWriteMark W c = (Except.ok false, c ||| mask W)) := by
  have hpos := mask_pos W
  constructor
  · unfold pollWriteMark
    simp
  · intro c hflag hne
    have hneq : c &&& mask W ≠ mask W := by
      rw [hflag]
      omega
    unfold pollWriteMark
    simp [hne, hneq]

/-- Witness for C6 at W = 8: previous word 0 gives a ready guard and leaves
128; previous word 3 gives a not-ready guard and leaves 131. -/
theorem write_fetch_or_classify_witness :
    pollWriteMark 8 0 = (Except.ok true, mask 8) ∧
    pollWriteMark 8 3 = (Except.ok false, 3 ||| mask 8) :=
  ⟨(write_fetch_or_classify 8 (by decide)).1,
   (write_fetch_or_classify 8 (by decide)).2 3 (by decide) (by decide)⟩

/-- C7: `DrainGuard::upgrade` returns a WriteGuard immediately when the guard
is flagged ready; when flagged not-ready it succeeds exactly when the
re-loaded word equals the writer bit with zero count, and otherwise fails
with the word unchanged; and in Scenario E (one ReadGuard held, then
`write()`, at W = 8) upgrade fails while the reader is live and succeeds
after the ReadGuard drops. -/
theorem upgrade_ready_or_drained (W c : Nat) :
    upgrade W true c = (true, c) ∧
    ((upgrade W false c).1 = true ↔ c = mask W) ∧
    (upgrade W false c).2 = c ∧
    (pollRead 8 0 true = (Except.ok (), 1) ∧
     pollWriteMark 8 1 = (Except.ok false, 129) ∧
     upgrade 8 false 129 = (false, 129) ∧
     (doneReading 8 129).2 = 128 ∧
     upgrade 8 false 128 = (true, 128)) := by
  refine ⟨?_, ?_, ?_, rfl, rfl, rfl, rfl, rfl⟩
  · simp [upgrade]
  · by_cases h : mask W = c
    · simp [upgrade, pollWriteUpgrade, h]
    · have h2 : ¬ c = mask W := fun he => h he.symm
      simp [upgrade, pollWriteUpgrade, h, h2]
  · by_cases h : mask W = c <;> simp [upgrade, pollWriteUpgrade, h]

/-- C8: dropping a never-upgraded DrainGuard clears exactly the writer-intent
bit, leaving the reader-count bits unchanged; a subsequent `poll_read` on the
resulting word succeeds (winning its CAS, i.e. no writer intent re-asserted
in between) whenever the count has headroom. -/
theorem drain_drop_reopen (W c : Nat) (hW : 0 < W) :
    drainGuardDrop W c &&& mask W = 0 ∧
    drainGuardDrop W c &&& (mask W - 1) = c &&& (mask W - 1) ∧
    ((c &&& (mask W - 1)) + 1 < mask W →
      pollRead W (drainGuardDrop W c) true =
        (Except.ok (), (c &&& (mask W - 1)) + 1)) := by
  have hdef : drainGuardDrop W c = c % mask W := by
    unfold drainGuardDrop
    rw [notW_mask W hW, and_mask_sub_one]
  have hmodlt : c % mask W < mask W := Nat.mod_lt _ (mask_pos W)
  refine ⟨?_, ?_, ?_⟩
  · rw [hdef]
    exact and_mask_of_lt W _ hmodlt
  · rw [hdef, and_mask_sub_one, and_mask_sub_one, Nat.mod_eq_of_lt hmodlt]
  · intro hroom
    rw [and_mask_sub_one] at hroom
    rw [hdef, and_mask_sub_one]
    exact (pollRead_cas W (c % mask W) hW hroom).1

/-- Witness for C8 at W = 8, word 200 (flag set, count 72): the drop yields
72 and the subsequent read yields 73. -/
theorem drain_drop_reopen_witness :
    drainGuardDrop 8 200 &&& mask 8 = 0 ∧
    drainGuardDrop 8 200 &&& (mask 8 - 1) = 200 &&& (mask 8 - 1) ∧
    pollRead 8 (drainGuardDrop 8 200) true =
      (Except.ok (), (200 &&& (mask 8 - 1)) + 1) :=
  ⟨(drain_drop_reopen 8 200 (by decide)).1,
   (drain_drop_reopen 8 200 (by decide)).2.1,
   (drain_drop_reopen 8 200 (by decide)).2.2 (by decide)⟩

theorem pollRead_true_ok (W c c2 : Nat) (u : Unit)
    (h : pollRead W c true = (Except.ok u, c2)) : c2 = c + 1 ∧ c + 1 < mask W := by
  by_cases h1 : c < maxWord W
  · by_cases h2 : c + 1 < mask W
    · refine ⟨?_, h2⟩
      have hok : pollRead W c true = (Except.ok (), c + 1) := by
        unfold pollRead
        simp [h1, h2]
      rw [hok] at h
      have hsnd := congrArg Prod.snd h
      simpa using hsnd.symm
    · exfalso
      have herr : (pollRead W c true).1 = Except.error Blocked.Readers ∨
          (pollRead W c true).1 = Except.error Blocked.Writer := by
        unfold pollRead
        by_cases h3 : c &&& mask W ≠ mask W
        · left
          simp [h1, h2, h3]
        · right
          simp [h1, h2, h3]
      rw [h] at herr
      rcases herr with herr | herr <;> simp at herr
  · exfalso
    have herr : (pollRead W c true).1 = Except.error Blocked.Writer := by
      unfold pollRead
      simp [h1]
    rw [h] at herr
    simp at herr

theorem acquireN_eq (W : Nat) : ∀ n c c2, acquireN W n c = some c2 →
    c2 = c + n ∧ (n = 0 ∨ c + n < mask W) := by
  intro n
  induction n with
  | zero =>
    intro c c2 h
    simp [acquireN] at h
    exact ⟨h.symm, Or.inl rfl⟩
  | succ n ih =>
    intro c c2 h
    unfold acquireN at h
    split at h
    · rename_i u cmid heq
      obtain ⟨h1, h2⟩ := pollRead_true_ok W c cmid u heq
      subst h1
      obtain ⟨ha, hb⟩ := ih (c + 1) c2 h
      refine ⟨by omega, Or.inr ?_⟩
      rcases hb with hb | hb
      · omega
      · omega
    · simp at h

theorem doneReading_pos (W x : Nat) (h1 : 0 < x) (h2 : x < 2 ^ W) :
    (doneReading W x).2 = x - 1 := by
  have hp : 0 < 2 ^ W := Nat.two_pow_pos W
  have h3 : (doneReading W x).2 = (x + (2 ^ W - 1)) % 2 ^ W := rfl
  have h4 : x + (2 ^ W - 1) = (x - 1) + 2 ^ W := by omega
  rw [h3, h4, Nat.add_mod_right, Nat.mod_eq_of_lt (by omega)]

theorem dropsN_exact (W : Nat) : ∀ n c, c + n < 2 ^ W → dropsN W n (c + n) = c := by
  intro n
  induction n with
  | zero => intro c h; rfl
  | succ n ih =>
    intro c h
    have h1 : dropsN W (n + 1) (c + (n + 1)) =
        dropsN W n ((doneReading W (c + (n + 1))).2) := rfl
    rw [h1, doneReading_pos W _ (by omega) (by omega)]
    have h2 : c + (n + 1) - 1 = c + n := by omega
    rw [h2]
    exact ih c (by omega)

/-- C9: count conservation — starting from any word, `n` successful `read()`
acquisitions followed by dropping the `n` resulting ReadGuards return the
word, and in particular its reader-count bits, to the starting value. -/
theorem count_conservation (W n c c2 : Nat) (hW : 0 < W)
    (h : acquireN W n c = some c2) :
    dropsN W n c2 = c ∧ dropsN W n c2 &&& (mask W - 1) = c &&& (mask W - 1) := by
  obtain ⟨h1, h2⟩ := acquireN_eq W n c c2 h
  subst h1
  have hfull : dropsN W n (c + n) = c := by
    rcases h2 with h2 | h2
    · subst h2; rfl
    · have hm := mask_le_maxWord W hW
      have hp : 0 < 2 ^ W := Nat.two_pow_pos W
      have : c + n < 2 ^ W := by unfold maxWord at hm; omega
      exact dropsN_exact W n c this
  exact ⟨hfull, by rw [hfull]⟩

/-- Witness for C9 at W = 8: three acquisitions from word 5 reach 8; three
drops return to 5. -/
theorem count_conservation_witness :
    dropsN 8 3 8 = 5 ∧ dropsN 8 3 8 &&& (mask 8 - 1) = 5 &&& (mask 8 - 1) :=
  count_conservation 8 3 5 8 (by decide) (by simp [acquireN, pollRead, mask, maxWord])

/-- C10: no lock-protocol operation touches the protected value — `new`,
`read`, `write`, `upgrade`, `into_inner` and the drop handlers of ReadGuard,
DrainGuard and WriteGuard only read or modify the atomic word, never the
stored value, and `into_inner` returns exactly the value passed to `new`;
`WriteGuard::deref_mut` is the one operation that replaces the value. -/
theorem lock_ops_preserve_value {α : Type} (W : Nat) (l : Lease α) (b rdy : Bool) (v : α) :
    (Lease.new v : Lease α).intoInner = v ∧
    (Lease.read W l b).2.value = l.value ∧
    (Lease.write W l).2.value = l.value ∧
    (Lease.readGuardDrop W l).value = l.value ∧
    (Lease.drainGuardDrop W l).value = l.value ∧
    (Lease.writeGuardDrop W l).value = l.value ∧
    (Lease.upgrade W rdy l).2.value = l.value ∧
    (Lease.writeDerefMut l v).value = v :=
  ⟨rfl, rfl, rfl, rfl, rfl, rfl, rfl, rfl⟩
